import Mathlib

/-!
Shallow embedding of the reliable-UDP stream/socket implementation
(`src/UdpStream.ts`, `src/UdpSocket.ts` and the socket variant with the
open handler).  Application messages are opaque values handled by the
external Oracle; we model them as natural numbers.  JavaScript numbers do
not wrap, so sequence counters are plain `Nat`; the 16-bit truncation
performed by the external `BufferSerializer` on `uint16` reads/writes is
modelled explicitly with `% 65536`.
-/

namespace Udp

/-- Opaque application message (decoded by the external Oracle). -/
abbrev Msg := Nat

/-- The value delivered by a `uint16` read or write of the external serializer. -/
def readU16 (n : Nat) : Nat := n % 65536

/-- MAX_RETRY_INTERVAL from UdpStream.ts. -/
def MAX_RETRY_INTERVAL : Nat := 3000

/-- MIN_RETRY_INTERVAL from UdpStream.ts. -/
def MIN_RETRY_INTERVAL : Nat := 500

/-- The mutable fields of a `UdpStream`.  Timer handles are modelled by
whether they are armed; the one-shot `onClose` callback is modelled by its
presence plus a ghost counter of how many times it has been invoked. -/
structure StreamState where
  items : List (Nat × Msg)
  localSeq : Nat
  remoteSeq : Nat
  sendHandle : Bool
  retryHandle : Bool
  retryInterval : Nat
  attempts : Nat
  maxAttempts : Nat
  closing : Bool
  onClosePresent : Bool
  closeCount : Nat
deriving Repr, DecidableEq

/-- A freshly constructed `UdpStream` (constructor, UdpStream.ts lines 17-42). -/
def initStream : StreamState :=
  { items := [], localSeq := 0, remoteSeq := 0,
    sendHandle := false, retryHandle := false,
    retryInterval := MIN_RETRY_INTERVAL,
    attempts := 0, maxAttempts := 10,
    closing := false, onClosePresent := true, closeCount := 0 }

/-- `UdpStream.end` (UdpStream.ts lines 53-72): set `closing`, cancel both
timers, and fire `onClose` once, nulling it out first. -/
def endStream (s : StreamState) : StreamState :=
  if s.onClosePresent then
    { s with closing := true, retryHandle := false, sendHandle := false,
             onClosePresent := false, closeCount := s.closeCount + 1 }
  else
    { s with closing := true, retryHandle := false, sendHandle := false }

/-- The enqueue part of `UdpStream.send` (UdpStream.ts lines 150-154):
`if (item && !this.closing) { this.localSeq += 1; this.items.push(...) }`. -/
def enqueueIfOpen (s : StreamState) (it : Option Msg) : StreamState :=
  match it with
  | some m =>
    if s.closing then s
    else { s with localSeq := s.localSeq + 1,
                  items := s.items ++ [(s.localSeq + 1, m)] }
  | none => s

/-- The scheduling part of `UdpStream.send` (UdpStream.ts lines 156-182):
ignore if a send is already scheduled; end the stream when attempts are
exhausted; otherwise arm the immediate send. -/
def sendCore (s : StreamState) : StreamState :=
  if s.sendHandle then s
  else if s.maxAttempts ≤ s.attempts then endStream s
  else { s with sendHandle := true }

/-- `UdpStream.send` (UdpStream.ts lines 149-183), state effect. -/
def send (s : StreamState) (it : Option Msg) : StreamState :=
  sendCore (enqueueIfOpen s it)

/-- `UdpStream.close` (UdpStream.ts lines 44-51). -/
def close (s : StreamState) : StreamState :=
  if s.closing then s
  else send { s with closing := true, maxAttempts := 5 } none

/-- One inbound stream frame body as parsed by `receive`: the leading u16
ack and then the sequence of (u16 seq, oracle payload) entries that the
read loop will traverse. -/
structure Frame where
  ack : Nat
  body : List (Nat × Msg)
deriving Repr, DecidableEq

/-- The item loop of `UdpStream.receive` (UdpStream.ts lines 103-121).
Returns the final state together with the list of (seq, item) pairs that
were handed to the handler, in invocation order. -/
def receiveLoop : StreamState → List (Nat × Msg) → StreamState × List (Nat × Msg)
  | s, [] => (s, [])
  | s, e :: rest =>
    if readU16 e.1 = 0 then (s, [])
    else if readU16 e.1 = 0xffff then
      ({ close { s with remoteSeq := readU16 e.1 } with maxAttempts := 1 }, [])
    else if s.remoteSeq < readU16 e.1 then
      let s1 := if s.sendHandle then s else send s none
      let s2 := { s1 with remoteSeq := readU16 e.1 }
      let r := receiveLoop s2 rest
      (r.1, (readU16 e.1, e.2) :: r.2)
    else receiveLoop s rest

/-- `UdpStream.receive` (UdpStream.ts lines 74-122): drop acked head items,
reset attempts, end on a teardown ack (0xFFFF), otherwise reset the retry
timer and run the item loop. -/
def receive (s : StreamState) (f : Frame) : StreamState × List (Nat × Msg) :=
  let remoteAck := readU16 f.ack
  let s1 := { s with items := s.items.dropWhile (fun k => decide (k.1 ≤ remoteAck)),
                     attempts := 0 }
  if remoteAck = 0xffff then (endStream s1, [])
  else receiveLoop { s1 with retryInterval := MIN_RETRY_INTERVAL, retryHandle := false } f.body

/-- A sequence of `receive` calls; collects all handler invocations in order. -/
def runReceives : StreamState → List Frame → StreamState × List (Nat × Msg)
  | s, [] => (s, [])
  | s, f :: fs =>
    let r1 := receive s f
    let r2 := runReceives r1.1 fs
    (r2.1, r1.2 ++ r2.2)

example : (receive initStream ⟨0, [(1, 42), (2, 43), (0, 0)]⟩).2 = [(1, 42), (2, 43)] := by decide
example : (receive initStream ⟨0, [(1, 42), (1, 43), (0, 0)]⟩).2 = [(1, 42)] := by decide
example : (receive { initStream with items := [(1, 5), (2, 6)] } ⟨1, [(0, 0)]⟩).1.items
    = [(2, 6)] := by decide

/-! ### Serialization (`UdpStream.serialize`)

The external `BufferSerializer` is a bounded byte buffer.  We record the
emitted values as tokens (a u16 write or one oracle-encoded payload), the
cursor as byte count, and model a write that raises (buffer full) by its
capacity check: a u16 costs 2 bytes, an oracle encoding of `m` costs
`msize m` bytes. -/

/-- One value written to the outbound buffer. -/
inductive Tok where
  | u16 (n : Nat)
  | payload (m : Msg)
deriving Repr, DecidableEq

/-- Capacity and payload-size model of the external serializer/Oracle pair. -/
structure SerCfg where
  cap : Nat
  msize : Msg → Nat

/-- Result of the item-writing loop: final cursor, emitted tokens, and the
`remaining` counter of items not written. -/
structure SerOut where
  used : Nat
  out : List Tok
  remaining : Nat
deriving Repr, DecidableEq

/-- The item loop of `UdpStream.serialize` (UdpStream.ts lines 126-139):
for each pending item, mark the cursor, write u16 seq then the oracle
encoding; if a write raises, revert to the mark and stop. -/
def serializeItems (cfg : SerCfg) : List (Nat × Msg) → Nat → List Tok → SerOut
  | [], used, out => ⟨used, out, 0⟩
  | e :: rest, used, out =>
    if used + 2 + cfg.msize e.2 ≤ cfg.cap then
      serializeItems cfg rest (used + 2 + cfg.msize e.2)
        (out ++ [Tok.u16 (readU16 e.1), Tok.payload e.2])
    else ⟨used, out, rest.length + 1⟩

/-- `UdpStream.serialize` (UdpStream.ts lines 124-147): write the ack,
then the items under mark/revert, then the terminator — 0xFFFF when
closing and nothing remained unwritten, 0 otherwise.  `none` models an
exception escaping from the unguarded ack/terminator writes. -/
def serialize (cfg : SerCfg) (s : StreamState) : Option (List Tok) :=
  if 0 + 2 ≤ cfg.cap then
    let r := serializeItems cfg s.items (0 + 2) [Tok.u16 (readU16 s.remoteSeq)]
    if r.used + 2 ≤ cfg.cap then
      some (r.out ++ [Tok.u16 (if s.closing = true ∧ r.remaining = 0 then 0xffff else 0)])
    else none
  else none

/-- The body of the scheduled immediate in `UdpStream.send` (UdpStream.ts
lines 165-182): bump attempts, emit the frame via `socket.sendStream`,
clear the send handle, then either arm the retry timer (items pending or
closing) or reset attempts (pure ack). -/
def sendTick (cfg : SerCfg) (s : StreamState) : StreamState × Option (List Tok) :=
  let s1 := { s with attempts := s.attempts + 1 }
  let frame := serialize cfg s1
  let s2 := { s1 with sendHandle := false }
  if s2.items.length ≠ 0 ∨ s2.closing = true then
    ({ s2 with retryHandle := true,
               retryInterval := if s2.retryInterval < MAX_RETRY_INTERVAL
                                then s2.retryInterval + 500 else s2.retryInterval }, frame)
  else ({ s2 with attempts := 0 }, frame)

/-- The token run of a written item list: u16 seq then the payload, per item. -/
def itemToks : List (Nat × Msg) → List Tok
  | [] => []
  | e :: rest => Tok.u16 (readU16 e.1) :: Tok.payload e.2 :: itemToks rest

example :
    serialize ⟨100, fun _ => 3⟩
      { initStream with items := [(1, 10), (2, 20)], closing := true }
    = some [Tok.u16 0, Tok.u16 1, Tok.payload 10, Tok.u16 2, Tok.payload 20, Tok.u16 0xffff] := by
  decide

example :
    serialize ⟨10, fun _ => 3⟩
      { initStream with items := [(1, 10), (2, 20)], closing := true }
    = some [Tok.u16 0, Tok.u16 1, Tok.payload 10, Tok.u16 0] := by
  decide

/-! ### Stream event traces

All the entry points through which the event loop can touch one stream:
the public calls, the scheduled immediate, the retry timer, and an inbound
frame.  Timer events only fire when the corresponding handle is armed. -/

/-- One event-loop interaction with a stream. -/
inductive Ev where
  | enqueue (m : Msg)
  | tick
  | retryFire
  | rcv (f : Frame)
  | closeEv
  | endEv
deriving Repr, DecidableEq

/-- Effect of one event on the stream state (frames produced are dropped;
the retry timer body is `() => this.send()`, UdpStream.ts line 176). -/
def step (cfg : SerCfg) (s : StreamState) : Ev → StreamState
  | .enqueue m => send s (some m)
  | .tick => if s.sendHandle then (sendTick cfg s).1 else s
  | .retryFire => if s.retryHandle then send { s with retryHandle := false } none else s
  | .rcv f => (receive s f).1
  | .closeEv => close s
  | .endEv => endStream s

/-- Run a trace of events from a state. -/
def run (cfg : SerCfg) : StreamState → List Ev → StreamState
  | s, [] => s
  | s, e :: tr => run cfg (step cfg s e) tr

/-! ### Socket dispatch (`UdpSocket.handleMessage`) -/

/-- EndPoint from UdpStream.ts line 7. -/
structure EndPoint where
  port : Nat
  address : String
deriving Repr, DecidableEq

/-- `getEndPointId` from UdpSocket.ts lines 9-11. -/
def getEndPointId (e : EndPoint) : String :=
  e.address ++ ":" ++ toString e.port

/-- Outcome of the GENERAL branch of `handleMessage` (UdpSocket.ts lines
106-111): the handler for the decoded TypeId is looked up and invoked
without a presence check, so a missing registration raises a TypeError at
the call `handler(obj)`. -/
inductive GeneralOutcome where
  | handled (id : Nat)
  | typeError
deriving Repr, DecidableEq

/-- The GENERAL branch of `handleMessage`, given the registered general
handler TypeIds and the decoded message's TypeId. -/
def handleGeneralMsg (registered : List Nat) (msgId : Nat) : GeneralOutcome :=
  if registered.contains msgId then .handled msgId else .typeError

/-- An entry of the `streams` map (`server_streams`): the registered stream
(identified by a tag) and its user data. -/
structure Reg where
  streamId : Nat
  userData : Nat
deriving Repr, DecidableEq

/-- `this.streams.has(remoteId)` over the association-list model. -/
def hasKey (streams : List (String × Reg)) (k : String) : Bool :=
  streams.any (fun p => p.1 = k)

/-- Result of resolving the async connect handler for a provisional stream. -/
structure ResolveOut where
  streams : List (String × Reg)
  provisionalEnded : Bool
  openFired : Bool
deriving Repr, DecidableEq

/-- Resolution of the awaited connect handler (UdpSocket.ts lines 145-153;
the open-handler line is from the socket variant, lines 170-179): register
the provisional stream iff the handler returned user data and no stream
was registered for this remote during the await, firing the open handler
if one is installed; otherwise `stream.end()` releases the loser. -/
def resolveConnect (streams : List (String × Reg)) (remoteId : String) (sid : Nat)
    (userData : Option Nat) (openHandlerPresent : Bool) : ResolveOut :=
  match userData with
  | some u =>
    if hasKey streams remoteId then
      { streams := streams, provisionalEnded := true, openFired := false }
    else
      { streams := (remoteId, ⟨sid, u⟩) :: streams, provisionalEnded := false,
        openFired := openHandlerPresent }
  | none => { streams := streams, provisionalEnded := true, openFired := false }

/-- Routing decision of the STREAM branch of `handleMessage` (UdpSocket.ts
lines 112-169). -/
inductive StreamDispatch where
  | toClient (r : StreamState × List (Nat × Msg))
  | toExisting (remoteId : String) (f : Frame)
  | toProvisional (remoteId : String) (f : Frame)
deriving Repr, DecidableEq

/-- The STREAM branch of `handleMessage`: with an outbound client stream
the frame is fed to it unconditionally (UdpSocket.ts lines 113-123);
otherwise the remote endpoint id selects an existing server stream or a
new provisional one. -/
def handleStreamDatagram (client : Option StreamState) (streams : List (String × Reg))
    (f : Frame) (rinfo : EndPoint) : StreamDispatch :=
  match client with
  | some st => .toClient (receive st f)
  | none =>
    if hasKey streams (getEndPointId rinfo) then .toExisting (getEndPointId rinfo) f
    else .toProvisional (getEndPointId rinfo) f

/-! ### Field-preservation lemmas for the stream operations -/

@[simp] theorem endStream_remoteSeq (s : StreamState) : (endStream s).remoteSeq = s.remoteSeq := by
  unfold endStream; split <;> rfl

@[simp] theorem endStream_items (s : StreamState) : (endStream s).items = s.items := by
  unfold endStream; split <;> rfl

@[simp] theorem endStream_localSeq (s : StreamState) : (endStream s).localSeq = s.localSeq := by
  unfold endStream; split <;> rfl

@[simp] theorem endStream_closing (s : StreamState) : (endStream s).closing = true := by
  unfold endStream; split <;> rfl

@[simp] theorem endStream_sendHandle (s : StreamState) : (endStream s).sendHandle = false := by
  unfold endStream; split <;> rfl

@[simp] theorem endStream_retryHandle (s : StreamState) : (endStream s).retryHandle = false := by
  unfold endStream; split <;> rfl

@[simp] theorem endStream_onClosePresent (s : StreamState) :
    (endStream s).onClosePresent = false := by
  unfold endStream
  split
  · rfl
  · rename_i h
    simpa using Bool.not_eq_true _ ▸ h

@[simp] theorem sendCore_remoteSeq (s : StreamState) : (sendCore s).remoteSeq = s.remoteSeq := by
  unfold sendCore
  split
  · rfl
  · split
    · exact endStream_remoteSeq s
    · rfl

@[simp] theorem sendCore_items (s : StreamState) : (sendCore s).items = s.items := by
  unfold sendCore
  split
  · rfl
  · split
    · exact endStream_items s
    · rfl

@[simp] theorem sendCore_localSeq (s : StreamState) : (sendCore s).localSeq = s.localSeq := by
  unfold sendCore
  split
  · rfl
  · split
    · exact endStream_localSeq s
    · rfl

theorem sendCore_closing (s : StreamState) (h : s.closing = true) :
    (sendCore s).closing = true := by
  unfold sendCore
  split
  · exact h
  · split
    · exact endStream_closing s
    · exact h

theorem send_none_eq (s : StreamState) : send s none = sendCore s := rfl

@[simp] theorem close_remoteSeq (s : StreamState) : (close s).remoteSeq = s.remoteSeq := by
  unfold close
  split
  · rfl
  · rw [send_none_eq, sendCore_remoteSeq]

@[simp] theorem close_items (s : StreamState) : (close s).items = s.items := by
  unfold close
  split
  · rfl
  · rw [send_none_eq, sendCore_items]

@[simp] theorem close_localSeq (s : StreamState) : (close s).localSeq = s.localSeq := by
  unfold close
  split
  · rfl
  · rw [send_none_eq, sendCore_localSeq]

theorem close_closing (s : StreamState) : (close s).closing = true := by
  unfold close
  split
  · assumption
  · rw [send_none_eq]
    exact sendCore_closing _ rfl

/-! ### The receive loop: state effects and delivered items -/

theorem receiveLoop_items (body : List (Nat × Msg)) :
    ∀ s : StreamState, (receiveLoop s body).1.items = s.items := by
  induction body with
  | nil => intro s; rfl
  | cons e rest ih =>
    intro s
    by_cases h0 : readU16 e.1 = 0
    · simp [receiveLoop, h0]
    · by_cases hf : readU16 e.1 = 0xffff
      · simp [receiveLoop, h0, hf]
      · by_cases hlt : s.remoteSeq < readU16 e.1
        · simp only [receiveLoop, if_neg h0, if_neg hf, if_pos hlt]
          rw [ih]
          by_cases hs : s.sendHandle <;> simp [hs, send_none_eq]
        · simp only [receiveLoop, if_neg h0, if_neg hf, if_neg hlt]
          exact ih s

theorem receiveLoop_localSeq (body : List (Nat × Msg)) :
    ∀ s : StreamState, (receiveLoop s body).1.localSeq = s.localSeq := by
  induction body with
  | nil => intro s; rfl
  | cons e rest ih =>
    intro s
    by_cases h0 : readU16 e.1 = 0
    · simp [receiveLoop, h0]
    · by_cases hf : readU16 e.1 = 0xffff
      · simp [receiveLoop, h0, hf]
      · by_cases hlt : s.remoteSeq < readU16 e.1
        · simp only [receiveLoop, if_neg h0, if_neg hf, if_pos hlt]
          rw [ih]
          by_cases hs : s.sendHandle <;> simp [hs, send_none_eq]
        · simp only [receiveLoop, if_neg h0, if_neg hf, if_neg hlt]
          exact ih s

/-- Modelled from the spec for comparison with `receiveLoop`: process the
frame items in order; stop at terminator 0 or close sentinel 0xFFFF; hand
an item to the handler iff its seq strictly exceeds the current
`remote_seq`, which then advances to it; discard items with seq ≤
`remote_seq`. -/
def specDeliver (r : Nat) : List (Nat × Msg) → List (Nat × Msg)
  | [] => []
  | e :: rest =>
    if readU16 e.1 = 0 ∨ readU16 e.1 = 0xffff then []
    else if r < readU16 e.1 then (readU16 e.1, e.2) :: specDeliver (readU16 e.1) rest
    else specDeliver r rest

theorem receiveLoop_deliver_eq (body : List (Nat × Msg)) :
    ∀ s : StreamState, (receiveLoop s body).2 = specDeliver s.remoteSeq body := by
  induction body with
  | nil => intro s; rfl
  | cons e rest ih =>
    intro s
    by_cases h0 : readU16 e.1 = 0
    · simp [receiveLoop, specDeliver, h0]
    · by_cases hf : readU16 e.1 = 0xffff
      · simp [receiveLoop, specDeliver, h0, hf]
      · by_cases hlt : s.remoteSeq < readU16 e.1
        · simp only [receiveLoop, specDeliver, if_neg h0, if_neg hf, if_pos hlt]
          rw [ih]
          simp [h0, hf, hlt]
        · simp only [receiveLoop, specDeliver, if_neg h0, if_neg hf, if_neg hlt]
          rw [ih]
          simp [h0, hf, hlt]

theorem receive_items (s : StreamState) (f : Frame) :
    (receive s f).1.items
      = s.items.dropWhile (fun k => decide (k.1 ≤ readU16 f.ack)) := by
  by_cases h : readU16 f.ack = 0xffff
  · simp only [receive, if_pos h]
    simp
  · simp only [receive, if_neg h]
    rw [receiveLoop_items]

theorem receive_teardown (s : StreamState) (f : Frame) (h : readU16 f.ack = 0xffff) :
    (receive s f).1.onClosePresent = false ∧ (receive s f).1.closing = true ∧
    (receive s f).1.sendHandle = false ∧ (receive s f).1.retryHandle = false ∧
    (receive s f).2 = [] := by
  simp only [receive, if_pos h]
  simp

theorem receive_deliver_eq (s : StreamState) (f : Frame) :
    (receive s f).2
      = if readU16 f.ack = 0xffff then [] else specDeliver s.remoteSeq f.body := by
  by_cases h : readU16 f.ack = 0xffff
  · simp only [receive, if_pos h, h, if_true]
  · simp only [receive, if_neg h, h, if_false]
    rw [receiveLoop_deliver_eq]

/-- Delivered seqs in one loop run are strictly increasing, all strictly
above the starting `remoteSeq` and at most the final `remoteSeq`, which is
monotone and stays a u16 value. -/
theorem receiveLoop_track (body : List (Nat × Msg)) :
    ∀ s : StreamState, s.remoteSeq ≤ 0xffff →
    ((receiveLoop s body).2.map Prod.fst).Pairwise (· < ·) ∧
    (∀ q ∈ (receiveLoop s body).2.map Prod.fst,
        s.remoteSeq < q ∧ q ≤ (receiveLoop s body).1.remoteSeq) ∧
    s.remoteSeq ≤ (receiveLoop s body).1.remoteSeq ∧
    (receiveLoop s body).1.remoteSeq ≤ 0xffff := by
  induction body with
  | nil => intro s h; simp [receiveLoop, h]
  | cons e rest ih =>
    intro s h
    by_cases h0 : readU16 e.1 = 0
    · simp [receiveLoop, h0, h]
    · by_cases hf : readU16 e.1 = 0xffff
      · simp only [receiveLoop, if_neg h0, if_pos hf]
        refine ⟨by simp, by simp, ?_, ?_⟩
        · simp [hf] at h ⊢
          exact h
        · simp [hf]
      · by_cases hlt : s.remoteSeq < readU16 e.1
        · simp only [receiveLoop, if_neg h0, if_neg hf, if_pos hlt]
          have hb : readU16 e.1 ≤ 0xffff := by
            have : readU16 e.1 < 65536 := Nat.mod_lt _ (by norm_num)
            omega
          set s2 : StreamState :=
            { (if s.sendHandle then s else send s none) with remoteSeq := readU16 e.1 } with hs2
          have hs2r : s2.remoteSeq = readU16 e.1 := rfl
          obtain ⟨ihp, ihb, ihm, ihu⟩ := ih s2 (by rw [hs2r]; exact hb)
          refine ⟨?_, ?_, ?_, ?_⟩
          · simp only [List.map_cons, List.pairwise_cons]
            exact ⟨fun q hq => by
              have := (ihb q hq).1
              rw [hs2r] at this
              simpa using this, ihp⟩
          · intro q hq
            simp only [List.map_cons, List.mem_cons] at hq
            rcases hq with rfl | hq
            · exact ⟨hlt, by rw [← hs2r]; exact ihm⟩
            · have := ihb q hq
              rw [hs2r] at this
              exact ⟨lt_trans hlt this.1, this.2⟩
          · calc s.remoteSeq ≤ readU16 e.1 := le_of_lt hlt
              _ = s2.remoteSeq := hs2r.symm
              _ ≤ _ := ihm
          · exact ihu
        · simp only [receiveLoop, if_neg h0, if_neg hf, if_neg hlt]
          exact ih s h

/-- `receive`-level version of `receiveLoop_track`. -/
theorem receive_track (s : StreamState) (f : Frame) (h : s.remoteSeq ≤ 0xffff) :
    ((receive s f).2.map Prod.fst).Pairwise (· < ·) ∧
    (∀ q ∈ (receive s f).2.map Prod.fst,
        s.remoteSeq < q ∧ q ≤ (receive s f).1.remoteSeq) ∧
    s.remoteSeq ≤ (receive s f).1.remoteSeq ∧
    (receive s f).1.remoteSeq ≤ 0xffff := by
  by_cases ha : readU16 f.ack = 0xffff
  · simp only [receive, if_pos ha]
    simpa using h
  · simp only [receive, if_neg ha]
    exact receiveLoop_track f.body _ h

/-- Multi-frame version: across any sequence of receive calls. -/
theorem runReceives_track (fs : List Frame) :
    ∀ s : StreamState, s.remoteSeq ≤ 0xffff →
    ((runReceives s fs).2.map Prod.fst).Pairwise (· < ·) ∧
    (∀ q ∈ (runReceives s fs).2.map Prod.fst,
        s.remoteSeq < q ∧ q ≤ (runReceives s fs).1.remoteSeq) ∧
    s.remoteSeq ≤ (runReceives s fs).1.remoteSeq ∧
    (runReceives s fs).1.remoteSeq ≤ 0xffff := by
  induction fs with
  | nil => intro s h; simp [runReceives, h]
  | cons f fs ih =>
    intro s h
    obtain ⟨p1, b1, m1, u1⟩ := receive_track s f h
    obtain ⟨p2, b2, m2, u2⟩ := ih (receive s f).1 u1
    simp only [runReceives, List.map_append]
    refine ⟨?_, ?_, le_trans m1 m2, u2⟩
    · rw [List.pairwise_append]
      exact ⟨p1, p2, fun a ha b hb => lt_of_le_of_lt (b1 a ha).2 (b2 b hb).1⟩
    · intro q hq
      rw [List.mem_append] at hq
      rcases hq with hq | hq
      · exact ⟨(b1 q hq).1, le_trans (b1 q hq).2 m2⟩
      · exact ⟨lt_of_le_of_lt m1 (b2 q hq).1, (b2 q hq).2⟩

/-! ### Serialization shape -/

/-- The item loop emits exactly the tokens of an initial segment of the
pending queue, and `remaining` counts the items it did not write. -/
theorem serializeItems_shape (cfg : SerCfg) (items : List (Nat × Msg)) :
    ∀ (used : Nat) (out : List Tok), ∃ k, k ≤ items.length ∧
      (serializeItems cfg items used out).out = out ++ itemToks (items.take k) ∧
      (serializeItems cfg items used out).remaining = items.length - k := by
  induction items with
  | nil => intro used out; exact ⟨0, by simp [serializeItems, itemToks]⟩
  | cons e rest ih =>
    intro used out
    by_cases hfit : used + 2 + cfg.msize e.2 ≤ cfg.cap
    · obtain ⟨k, hk, ho, hr⟩ :=
        ih (used + 2 + cfg.msize e.2) (out ++ [Tok.u16 (readU16 e.1), Tok.payload e.2])
      refine ⟨k + 1, by simpa using Nat.succ_le_succ hk, ?_, ?_⟩
      · simp only [serializeItems, if_pos hfit]
        rw [ho]
        simp [itemToks]
      · simp only [serializeItems, if_pos hfit]
        rw [hr]
        simp [Nat.succ_sub_succ]
    · exact ⟨0, by simp [serializeItems, if_neg hfit, itemToks]⟩

/-! ### The one-shot close callback -/

/-- The callback is still installed and never fired, or it has been
removed and fired exactly once. -/
def CloseOnce (s : StreamState) : Prop :=
  (s.onClosePresent = true ∧ s.closeCount = 0) ∨
  (s.onClosePresent = false ∧ s.closeCount = 1)

theorem endStream_closeOnce (s : StreamState) (h : CloseOnce s) : CloseOnce (endStream s) := by
  unfold endStream CloseOnce at *
  rcases h with ⟨h1, h2⟩ | ⟨h1, h2⟩
  · rw [if_pos h1]
    right
    exact ⟨rfl, by simp [h2]⟩
  · rw [if_neg (by simp [h1])]
    right
    exact ⟨h1, h2⟩

theorem sendCore_closeOnce (s : StreamState) (h : CloseOnce s) : CloseOnce (sendCore s) := by
  unfold sendCore
  split
  · exact h
  · split
    · exact endStream_closeOnce s h
    · exact h

@[simp] theorem enqueueIfOpen_onClosePresent (s : StreamState) (it : Option Msg) :
    (enqueueIfOpen s it).onClosePresent = s.onClosePresent := by
  cases it with
  | none => rfl
  | some m =>
    unfold enqueueIfOpen
    split <;> first | rfl | (split <;> rfl)

@[simp] theorem enqueueIfOpen_closeCount (s : StreamState) (it : Option Msg) :
    (enqueueIfOpen s it).closeCount = s.closeCount := by
  cases it with
  | none => rfl
  | some m =>
    unfold enqueueIfOpen
    split <;> first | rfl | (split <;> rfl)

theorem enqueueIfOpen_closeOnce (s : StreamState) (it : Option Msg) (h : CloseOnce s) :
    CloseOnce (enqueueIfOpen s it) := by
  unfold CloseOnce at *
  simpa using h

theorem send_closeOnce (s : StreamState) (it : Option Msg) (h : CloseOnce s) :
    CloseOnce (send s it) :=
  sendCore_closeOnce _ (enqueueIfOpen_closeOnce s it h)

theorem close_closeOnce (s : StreamState) (h : CloseOnce s) : CloseOnce (close s) := by
  unfold close
  split
  · exact h
  · exact send_closeOnce _ none h

theorem receiveLoop_closeOnce (body : List (Nat × Msg)) :
    ∀ s : StreamState, CloseOnce s → CloseOnce (receiveLoop s body).1 := by
  induction body with
  | nil => intro s h; exact h
  | cons e rest ih =>
    intro s h
    by_cases h0 : readU16 e.1 = 0
    · simp only [receiveLoop, if_pos h0]
      exact h
    · by_cases hf : readU16 e.1 = 0xffff
      · simp only [receiveLoop, if_neg h0, if_pos hf]
        exact close_closeOnce _ h
      · by_cases hlt : s.remoteSeq < readU16 e.1
        · simp only [receiveLoop, if_neg h0, if_neg hf, if_pos hlt]
          apply ih
          by_cases hs : s.sendHandle
          · simp only [if_pos hs]
            exact h
          · simp only [if_neg hs]
            exact send_closeOnce s none h
        · simp only [receiveLoop, if_neg h0, if_neg hf, if_neg hlt]
          exact ih s h

theorem receive_closeOnce (s : StreamState) (f : Frame) (h : CloseOnce s) :
    CloseOnce (receive s f).1 := by
  by_cases ha : readU16 f.ack = 0xffff
  · simp only [receive, if_pos ha]
    exact endStream_closeOnce _ h
  · simp only [receive, if_neg ha]
    exact receiveLoop_closeOnce f.body _ h

@[simp] theorem sendTick_onClosePresent (cfg : SerCfg) (s : StreamState) :
    (sendTick cfg s).1.onClosePresent = s.onClosePresent := by
  unfold sendTick
  dsimp only
  split <;> rfl

@[simp] theorem sendTick_closeCount (cfg : SerCfg) (s : StreamState) :
    (sendTick cfg s).1.closeCount = s.closeCount := by
  unfold sendTick
  dsimp only
  split <;> rfl

/-- `CloseOnce` only depends on the callback fields. -/
theorem closeOnce_of_eq (s t : StreamState) (h1 : s.onClosePresent = t.onClosePresent)
    (h2 : s.closeCount = t.closeCount) (h : CloseOnce t) : CloseOnce s := by
  unfold CloseOnce at *
  rw [h1, h2]
  exact h

theorem step_closeOnce (cfg : SerCfg) (s : StreamState) (e : Ev) (h : CloseOnce s) :
    CloseOnce (step cfg s e) := by
  cases e with
  | enqueue m => exact send_closeOnce s (some m) h
  | tick =>
    simp only [step]
    split
    · exact closeOnce_of_eq _ s (sendTick_onClosePresent cfg s) (sendTick_closeCount cfg s) h
    · exact h
  | retryFire =>
    simp only [step]
    split
    · exact send_closeOnce _ none (closeOnce_of_eq _ s rfl rfl h)
    · exact h
  | rcv f => exact receive_closeOnce s f h
  | closeEv => exact close_closeOnce s h
  | endEv => exact endStream_closeOnce s h

theorem run_closeOnce (cfg : SerCfg) (tr : List Ev) :
    ∀ s : StreamState, CloseOnce s → CloseOnce (run cfg s tr) := by
  induction tr with
  | nil => intro s h; exact h
  | cons e tr ih => intro s h; exact ih _ (step_closeOnce cfg s e h)

/-! ### Once the callback has fired it never comes back -/

theorem sendCore_absent (s : StreamState) (h : s.onClosePresent = false) :
    (sendCore s).onClosePresent = false := by
  unfold sendCore
  split
  · exact h
  · split
    · exact endStream_onClosePresent s
    · exact h

theorem send_absent (s : StreamState) (it : Option Msg) (h : s.onClosePresent = false) :
    (send s it).onClosePresent = false := by
  unfold send
  exact sendCore_absent _ (by simpa using h)

theorem close_absent (s : StreamState) (h : s.onClosePresent = false) :
    (close s).onClosePresent = false := by
  unfold close
  split
  · exact h
  · exact send_absent _ none h

theorem receiveLoop_absent (body : List (Nat × Msg)) :
    ∀ s : StreamState, s.onClosePresent = false →
      (receiveLoop s body).1.onClosePresent = false := by
  induction body with
  | nil => intro s h; exact h
  | cons e rest ih =>
    intro s h
    by_cases h0 : readU16 e.1 = 0
    · simp only [receiveLoop, if_pos h0]
      exact h
    · by_cases hf : readU16 e.1 = 0xffff
      · simp only [receiveLoop, if_neg h0, if_pos hf]
        exact close_absent _ h
      · by_cases hlt : s.remoteSeq < readU16 e.1
        · simp only [receiveLoop, if_neg h0, if_neg hf, if_pos hlt]
          apply ih
          by_cases hs : s.sendHandle
          · simp only [if_pos hs]
            exact h
          · simp only [if_neg hs]
            exact send_absent s none h
        · simp only [receiveLoop, if_neg h0, if_neg hf, if_neg hlt]
          exact ih s h

theorem receive_absent (s : StreamState) (f : Frame) (h : s.onClosePresent = false) :
    (receive s f).1.onClosePresent = false := by
  by_cases ha : readU16 f.ack = 0xffff
  · simp only [receive, if_pos ha]
    exact endStream_onClosePresent _
  · simp only [receive, if_neg ha]
    exact receiveLoop_absent f.body _ h

theorem step_absent (cfg : SerCfg) (s : StreamState) (e : Ev) (h : s.onClosePresent = false) :
    (step cfg s e).onClosePresent = false := by
  cases e with
  | enqueue m => exact send_absent s (some m) h
  | tick =>
    simp only [step]
    split
    · rw [sendTick_onClosePresent]
      exact h
    · exact h
  | retryFire =>
    simp only [step]
    split
    · exact send_absent _ none h
    · exact h
  | rcv f => exact receive_absent s f h
  | closeEv => exact close_absent s h
  | endEv => exact endStream_onClosePresent s

theorem run_absent (cfg : SerCfg) (tr : List Ev) :
    ∀ s : StreamState, s.onClosePresent = false → (run cfg s tr).onClosePresent = false := by
  induction tr with
  | nil => intro s h; exact h
  | cons e tr ih => intro s h; exact ih _ (step_absent cfg s e h)

/-- An explicit `end()` in the trace leaves the callback consumed. -/
theorem run_end_mem_absent (cfg : SerCfg) (tr : List Ev) :
    ∀ s : StreamState, Ev.endEv ∈ tr → (run cfg s tr).onClosePresent = false := by
  induction tr with
  | nil => intro s h; cases h
  | cons e tr ih =>
    intro s h
    rcases List.mem_cons.mp h with h | h
    · subst h
      by_cases ht : Ev.endEv ∈ tr
      · exact ih _ ht
      · exact run_absent cfg tr _ (endStream_onClosePresent s)
    · exact ih _ h

/-- Receipt of a teardown ack (0xFFFF) in the trace leaves the callback consumed. -/
theorem run_teardown_mem_absent (cfg : SerCfg) (tr : List Ev) :
    ∀ s : StreamState, (∃ f, Ev.rcv f ∈ tr ∧ readU16 f.ack = 0xffff) →
      (run cfg s tr).onClosePresent = false := by
  induction tr with
  | nil => intro s h; exact absurd h.choose_spec.1 (List.not_mem_nil _)
  | cons e tr ih =>
    intro s h
    obtain ⟨f, hm, hack⟩ := h
    rcases List.mem_cons.mp hm with hm | hm
    · subst hm
      by_cases ht : ∃ g, Ev.rcv g ∈ tr ∧ readU16 g.ack = 0xffff
      · exact ih _ ht
      · exact run_absent cfg tr _ ((receive_teardown s f hack).1)
    · exact ih _ ⟨f, hm, hack⟩

@[simp] theorem sendTick_items (cfg : SerCfg) (s : StreamState) :
    (sendTick cfg s).1.items = s.items := by
  unfold sendTick
  dsimp only
  split <;> rfl

theorem hasKey_false_iff (streams : List (String × Reg)) (k : String) :
    hasKey streams k = false ↔ ∀ r ∈ streams, r.1 ≠ k := by
  simp [hasKey]

/-! ### Claims -/

/-- C1: Across any sequence of `receive` calls, the item handler runs at
most once per sequence number and in strictly increasing seq order; every
delivered seq strictly exceeds the initial `remoteSeq`; `remoteSeq` never
decreases; and per frame the delivered items are exactly those of the
spec-side rule `specDeliver`, which hands an item over iff its seq is
strictly greater than the current `remote_seq` (advancing it) and silently
discards items with seq ≤ `remote_seq`. -/
theorem c1_inorder_at_most_once (s : StreamState) (fs : List Frame)
    (h : s.remoteSeq ≤ 0xffff) :
    ((runReceives s fs).2.map Prod.fst).Pairwise (· < ·) ∧
    (∀ q ∈ (runReceives s fs).2.map Prod.fst, s.remoteSeq < q) ∧
    s.remoteSeq ≤ (runReceives s fs).1.remoteSeq ∧
    (∀ f : Frame, (receive s f).2
        = if readU16 f.ack = 0xffff then [] else specDeliver s.remoteSeq f.body) := by
  obtain ⟨p, b, m, u⟩ := runReceives_track fs s h
  exact ⟨p, fun q hq => (b q hq).1, m, fun f => receive_deliver_eq s f⟩

/-- C1 witness at a concrete stream and frame list. -/
theorem c1_witness :
    ((runReceives initStream [⟨0, [(1, 7), (2, 9), (0, 0)]⟩]).2.map Prod.fst).Pairwise (· < ·) ∧
    initStream.remoteSeq ≤ (runReceives initStream [⟨0, [(1, 7), (2, 9), (0, 0)]⟩]).1.remoteSeq ∧
    (receive initStream ⟨0, [(1, 7), (2, 9), (0, 0)]⟩).2
      = if readU16 (0 : Nat) = 0xffff then []
        else specDeliver initStream.remoteSeq [(1, 7), (2, 9), (0, 0)] := by
  have h := c1_inorder_at_most_once initStream [⟨0, [(1, 7), (2, 9), (0, 0)]⟩] (by decide)
  exact ⟨h.1, h.2.2.1, h.2.2.2 ⟨0, [(1, 7), (2, 9), (0, 0)]⟩⟩

/-- C2: A successfully produced frame body is the u16 `remote_seq` ack
first, then an initial segment of the pending queue in order (u16 seq
followed by the oracle payload for each item), and a final u16 terminator
equal to 0xFFFF exactly when `closing` is set and every pending item was
written into this frame, and 0 otherwise. -/
theorem c2_serialize_layout (cfg : SerCfg) (s : StreamState) (toks : List Tok)
    (h : serialize cfg s = some toks) :
    ∃ k, k ≤ s.items.length ∧
      toks = Tok.u16 (readU16 s.remoteSeq)
        :: (itemToks (s.items.take k)
            ++ [Tok.u16 (if s.closing = true ∧ k = s.items.length then 0xffff else 0)]) := by
  simp only [serialize] at h
  obtain ⟨k, hk, ho, hr⟩ :=
    serializeItems_shape cfg s.items (0 + 2) [Tok.u16 (readU16 s.remoteSeq)]
  refine ⟨k, hk, ?_⟩
  split at h
  · split at h
    · have hcond : (s.closing = true ∧
          (serializeItems cfg s.items (0 + 2) [Tok.u16 (readU16 s.remoteSeq)]).remaining = 0)
          ↔ (s.closing = true ∧ k = s.items.length) := by
        rw [hr]
        constructor
        · rintro ⟨hcl, hz⟩
          exact ⟨hcl, by omega⟩
        · rintro ⟨hcl, rfl⟩
          exact ⟨hcl, by omega⟩
      rw [if_congr hcond rfl rfl, ho] at h
      rw [← Option.some_inj.mp h]
      simp
    · cases h
  · cases h

/-- C2 witness at a concrete configuration and closing stream. -/
theorem c2_witness :
    ∃ k, k ≤ ({ initStream with items := [(1, 10), (2, 20)], closing := true }
                : StreamState).items.length ∧
      [Tok.u16 0, Tok.u16 1, Tok.payload 10, Tok.u16 2, Tok.payload 20, Tok.u16 0xffff]
        = Tok.u16 (readU16 ({ initStream with items := [(1, 10), (2, 20)], closing := true }
              : StreamState).remoteSeq)
          :: (itemToks (({ initStream with items := [(1, 10), (2, 20)], closing := true }
                : StreamState).items.take k)
              ++ [Tok.u16 (if ({ initStream with items := [(1, 10), (2, 20)], closing := true }
                    : StreamState).closing = true
                  ∧ k = ({ initStream with items := [(1, 10), (2, 20)], closing := true }
                    : StreamState).items.length then 0xffff else 0)]) :=
  c2_serialize_layout ⟨100, fun _ => 3⟩
    { initStream with items := [(1, 10), (2, 20)], closing := true }
    [Tok.u16 0, Tok.u16 1, Tok.payload 10, Tok.u16 2, Tok.payload 20, Tok.u16 0xffff]
    (by decide)

/-- C3: If encoding an item raises mid-frame (capacity exceeded), the
cursor is reverted to just before that item: the emitted tokens are
exactly the ack plus the items strictly before the offending one, nothing
of the offending or any later item appears, and the emission step leaves
the pending queue unchanged. -/
theorem c3_revert_on_failure (cfg : SerCfg) (s : StreamState)
    (h : (serializeItems cfg s.items 2 [Tok.u16 (readU16 s.remoteSeq)]).remaining ≠ 0) :
    ∃ k, k < s.items.length ∧
      k = s.items.length
          - (serializeItems cfg s.items 2 [Tok.u16 (readU16 s.remoteSeq)]).remaining ∧
      (serializeItems cfg s.items 2 [Tok.u16 (readU16 s.remoteSeq)]).out
        = Tok.u16 (readU16 s.remoteSeq) :: itemToks (s.items.take k) ∧
      (sendTick cfg s).1.items = s.items := by
  obtain ⟨k, hk, ho, hr⟩ :=
    serializeItems_shape cfg s.items 2 [Tok.u16 (readU16 s.remoteSeq)]
  rw [hr] at h ⊢
  refine ⟨k, by omega, by omega, ?_, sendTick_items cfg s⟩
  rw [ho]
  simp

/-- C3 witness: a ten-byte buffer holding the ack and one three-byte item
but not the second. -/
theorem c3_witness :
    ∃ k, k < ({ initStream with items := [(1, 10), (2, 20)] } : StreamState).items.length ∧
      k = ({ initStream with items := [(1, 10), (2, 20)] } : StreamState).items.length
          - (serializeItems ⟨10, fun _ => 3⟩
              ({ initStream with items := [(1, 10), (2, 20)] } : StreamState).items 2
              [Tok.u16 (readU16 ({ initStream with items := [(1, 10), (2, 20)] }
                : StreamState).remoteSeq)]).remaining ∧
      (serializeItems ⟨10, fun _ => 3⟩
          ({ initStream with items := [(1, 10), (2, 20)] } : StreamState).items 2
          [Tok.u16 (readU16 ({ initStream with items := [(1, 10), (2, 20)] }
            : StreamState).remoteSeq)]).out
        = Tok.u16 (readU16 ({ initStream with items := [(1, 10), (2, 20)] }
            : StreamState).remoteSeq)
          :: itemToks (({ initStream with items := [(1, 10), (2, 20)] }
              : StreamState).items.take k) ∧
      (sendTick ⟨10, fun _ => 3⟩ { initStream with items := [(1, 10), (2, 20)] }).1.items
        = ({ initStream with items := [(1, 10), (2, 20)] } : StreamState).items :=
  c3_revert_on_failure ⟨10, fun _ => 3⟩ { initStream with items := [(1, 10), (2, 20)] }
    (by decide)

/-- C4: `receive` first reads the u16 ack and removes exactly the head
items of pending whose seq is at most the ack (the rest stay), and on a
teardown ack of 0xFFFF it ends the stream immediately: the callback is
consumed, `closing` is set, both timers are cancelled, and no payload item
of the frame is delivered. -/
theorem c4_ack_removes_head (s : StreamState) (f : Frame) :
    (receive s f).1.items
      = s.items.dropWhile (fun k => decide (k.1 ≤ readU16 f.ack)) ∧
    (readU16 f.ack = 0xffff →
      (receive s f).2 = [] ∧
      (receive s f).1.onClosePresent = false ∧
      (receive s f).1.closing = true ∧
      (receive s f).1.sendHandle = false ∧
      (receive s f).1.retryHandle = false) := by
  refine ⟨receive_items s f, fun h => ?_⟩
  obtain ⟨h1, h2, h3, h4, h5⟩ := receive_teardown s f h
  exact ⟨h5, h1, h2, h3, h4⟩

/-- C4 witness at a teardown frame against a stream with two pending items. -/
theorem c4_witness :
    (receive { initStream with items := [(1, 5), (2, 6)] } ⟨0xffff, []⟩).1.items
      = ({ initStream with items := [(1, 5), (2, 6)] }
          : StreamState).items.dropWhile (fun k => decide (k.1 ≤ readU16 0xffff)) ∧
    (receive { initStream with items := [(1, 5), (2, 6)] } ⟨0xffff, []⟩).2 = [] ∧
    (receive { initStream with items := [(1, 5), (2, 6)] } ⟨0xffff, []⟩).1.onClosePresent
      = false := by
  have h := c4_ack_removes_head { initStream with items := [(1, 5), (2, 6)] } ⟨0xffff, []⟩
  exact ⟨h.1, (h.2 (by decide)).1, (h.2 (by decide)).2.1⟩

/-- C5: When the receive loop reads a payload seq equal to 0xFFFF it sets
`remoteSeq` to 0xFFFF, marks the stream closing, sets `maxAttempts` to 1,
and stops reading further items of the frame. -/
theorem c5_remote_close_sentinel (s : StreamState) (e : Nat × Msg)
    (rest : List (Nat × Msg)) (h : readU16 e.1 = 0xffff) :
    receiveLoop s (e :: rest) = receiveLoop s [e] ∧
    (receiveLoop s (e :: rest)).1.remoteSeq = 0xffff ∧
    (receiveLoop s (e :: rest)).1.closing = true ∧
    (receiveLoop s (e :: rest)).1.maxAttempts = 1 ∧
    (receiveLoop s (e :: rest)).2 = [] := by
  have h0 : ¬ readU16 e.1 = 0 := by rw [h]; norm_num
  have hred : receiveLoop s (e :: rest)
      = ({ close { s with remoteSeq := readU16 e.1 } with maxAttempts := 1 }, []) := by
    simp only [receiveLoop, if_neg h0, if_pos h]
  have hred1 : receiveLoop s [e]
      = ({ close { s with remoteSeq := readU16 e.1 } with maxAttempts := 1 }, []) := by
    simp only [receiveLoop, if_neg h0, if_pos h]
  refine ⟨hred.trans hred1.symm, ?_, ?_, ?_, ?_⟩ <;> rw [hred]
  · simp [close_remoteSeq, h]
  · exact close_closing _

/-- C5 witness at a concrete frame body carrying the close sentinel. -/
theorem c5_witness :
    receiveLoop initStream [(0xffff, 0), (3, 9)] = receiveLoop initStream [(0xffff, 0)] ∧
    (receiveLoop initStream [(0xffff, 0), (3, 9)]).1.remoteSeq = 0xffff ∧
    (receiveLoop initStream [(0xffff, 0), (3, 9)]).1.closing = true ∧
    (receiveLoop initStream [(0xffff, 0), (3, 9)]).1.maxAttempts = 1 ∧
    (receiveLoop initStream [(0xffff, 0), (3, 9)]).2 = [] :=
  c5_remote_close_sentinel initStream (0xffff, 0) [(3, 9)] (by decide)

/-- A closing stream with no send scheduled and no attempts used. -/
def c6State : StreamState := { initStream with closing := true }

/-- C6 counterexample: the claim says `send(item)` on a closing stream is
a complete no-op with no send scheduled; on `c6State` the call schedules a
send, changing the state. -/
theorem c6_counterexample :
    c6State.closing = true ∧ c6State.sendHandle = false ∧
    (send c6State (some 1)).sendHandle = true ∧
    send c6State (some 1) ≠ c6State := by decide

/-- C6 (amended): `send(item)` on a closing stream does not enqueue — the
pending queue and `localSeq` are unchanged — but it otherwise behaves
exactly like a bare `send()`: it can still schedule a send or, on attempt
exhaustion, end the stream. -/
theorem c6_amended_send_while_closing (s : StreamState) (m : Msg) (h : s.closing = true) :
    send s (some m) = send s none ∧
    (send s (some m)).items = s.items ∧
    (send s (some m)).localSeq = s.localSeq := by
  have he : enqueueIfOpen s (some m) = s := by
    simp [enqueueIfOpen, h]
  refine ⟨?_, ?_, ?_⟩
  · show sendCore (enqueueIfOpen s (some m)) = sendCore (enqueueIfOpen s none)
    rw [he]
    rfl
  · show (sendCore (enqueueIfOpen s (some m))).items = s.items
    rw [he, sendCore_items]
  · show (sendCore (enqueueIfOpen s (some m))).localSeq = s.localSeq
    rw [he, sendCore_localSeq]

/-- C6 amended-claim witness on the concrete closing state. -/
theorem c6_witness :
    send c6State (some 1) = send c6State none ∧
    (send c6State (some 1)).items = c6State.items ∧
    (send c6State (some 1)).localSeq = c6State.localSeq :=
  c6_amended_send_while_closing c6State 1 (by decide)

/-- C7: Over any trace of stream events starting from a fresh stream, the
close callback fires at most once, and exactly once as soon as the trace
contains an `end()` or the receipt of a teardown ack (0xFFFF); attempts
exhaustion and local `close()` inside the trace can only reach the
callback through `end()`, which the invariant covers. -/
theorem c7_close_fires_once (cfg : SerCfg) (tr : List Ev) :
    (run cfg initStream tr).closeCount ≤ 1 ∧
    ((Ev.endEv ∈ tr ∨ ∃ f, Ev.rcv f ∈ tr ∧ readU16 f.ack = 0xffff) →
      (run cfg initStream tr).closeCount = 1) := by
  have hinv : CloseOnce (run cfg initStream tr) :=
    run_closeOnce cfg tr initStream (Or.inl ⟨rfl, rfl⟩)
  constructor
  · rcases hinv with ⟨_, h2⟩ | ⟨_, h2⟩ <;> omega
  · intro h
    have habs : (run cfg initStream tr).onClosePresent = false := by
      rcases h with h | h
      · exact run_end_mem_absent cfg tr _ h
      · exact run_teardown_mem_absent cfg tr _ h
    rcases hinv with ⟨h1, _⟩ | ⟨_, h2⟩
    · rw [habs] at h1
      cases h1
    · exact h2

/-- Serializer configuration used by concrete trace witnesses. -/
def c7Cfg : SerCfg := ⟨1000, fun _ => 1⟩

/-- C7 witness: a close followed by an explicit end fires the callback
exactly once. -/
theorem c7_witness :
    (run c7Cfg initStream [Ev.closeEv, Ev.endEv, Ev.endEv]).closeCount ≤ 1 ∧
    (run c7Cfg initStream [Ev.closeEv, Ev.endEv, Ev.endEv]).closeCount = 1 := by
  have h := c7_close_fires_once c7Cfg [Ev.closeEv, Ev.endEv, Ev.endEv]
  exact ⟨h.1, h.2 (Or.inl (by decide))⟩

/-- C8: The claim says an inbound GENERAL datagram whose TypeId has no
registered handler is ignored (logged), the datagram dropped, no handler
invoked.  The code (UdpSocket.ts lines 106-111) looks the handler up and
invokes it with no presence check, so the call raises a TypeError instead:
with no registrations, TypeId 7 evaluates to the TypeError outcome, while
a registered TypeId is dispatched. -/
theorem c8_missing_general_handler :
    handleGeneralMsg [] 7 = GeneralOutcome.typeError ∧
    handleGeneralMsg [7] 7 = GeneralOutcome.handled 7 := by decide

/-- C9: When the awaited connect handler resolves, the provisional stream
is registered (and the open handler fired, when installed) only if the
handler returned user data and no stream is registered for that remote;
in every other case the provisional stream is `end()`ed and the map is
untouched; registration preserves distinctness of the remote keys. -/
theorem c9_connect_resolution (streams : List (String × Reg)) (rid : String)
    (sid : Nat) (ud : Option Nat) (op : Bool) :
    (∀ u, ud = some u → hasKey streams rid = false →
      (resolveConnect streams rid sid ud op).streams = (rid, ⟨sid, u⟩) :: streams ∧
      (resolveConnect streams rid sid ud op).provisionalEnded = false ∧
      (resolveConnect streams rid sid ud op).openFired = op) ∧
    (ud = none ∨ hasKey streams rid = true →
      (resolveConnect streams rid sid ud op).streams = streams ∧
      (resolveConnect streams rid sid ud op).provisionalEnded = true ∧
      (resolveConnect streams rid sid ud op).openFired = false) ∧
    ((resolveConnect streams rid sid ud op).openFired = true →
      ud ≠ none ∧ hasKey streams rid = false ∧ op = true) ∧
    ((streams.map Prod.fst).Nodup →
      (((resolveConnect streams rid sid ud op).streams.map Prod.fst)).Nodup) := by
  refine ⟨?_, ?_, ?_, ?_⟩
  · intro u hu hk
    subst hu
    simp [resolveConnect, hk]
  · intro hcase
    rcases hcase with hu | hk
    · subst hu
      simp [resolveConnect]
    · cases ud with
      | none => simp [resolveConnect]
      | some u => simp [resolveConnect, hk]
  · intro hop
    cases ud with
    | none => simp [resolveConnect] at hop
    | some u =>
      by_cases hk : hasKey streams rid
      · simp [resolveConnect, hk] at hop
      · have hk' : hasKey streams rid = false := by simpa using hk
        simp only [resolveConnect, if_neg hk] at hop
        exact ⟨Option.some_ne_none u, hk', hop⟩
  · intro hn
    cases ud with
    | none => simpa [resolveConnect] using hn
    | some u =>
      by_cases hk : hasKey streams rid
      · simpa [resolveConnect, hk] using hn
      · have hk' : hasKey streams rid = false := by simpa using hk
        simp only [resolveConnect, if_neg hk, List.map_cons]
        refine List.Nodup.cons ?_ hn
        intro hmem
        obtain ⟨r, hr, hre⟩ := List.mem_map.mp hmem
        exact (hasKey_false_iff streams rid).mp hk' r hr hre

/-- C9 witness: an accepted connect into an empty map registers the
stream, does not end it, fires the open handler, and keeps keys distinct. -/
theorem c9_witness :
    (resolveConnect [] "10.0.0.9:4000" 7 (some 3) true).streams
      = [("10.0.0.9:4000", ⟨7, 3⟩)] ∧
    (resolveConnect [] "10.0.0.9:4000" 7 (some 3) true).provisionalEnded = false ∧
    (resolveConnect [] "10.0.0.9:4000" 7 (some 3) true).openFired = true ∧
    ((resolveConnect [] "10.0.0.9:4000" 7 (some 3) true).streams.map Prod.fst).Nodup := by
  have h := c9_connect_resolution [] "10.0.0.9:4000" 7 (some 3) true
  obtain ⟨h1, h2, h3⟩ := h.1 3 rfl (by decide)
  exact ⟨h1, h2, h3, h.2.2.2 (by decide)⟩

/-- C10: With an outbound client stream present, the STREAM branch of
`handleMessage` feeds every inbound frame to that stream no matter which
endpoint sent it: the result is identical for any two source endpoints and
is exactly `receive` on the client stream. -/
theorem c10_client_ignores_source (st : StreamState) (streams : List (String × Reg))
    (f : Frame) (r1 r2 : EndPoint) :
    handleStreamDatagram (some st) streams f r1 = handleStreamDatagram (some st) streams f r2 ∧
    handleStreamDatagram (some st) streams f r1 = StreamDispatch.toClient (receive st f) :=
  ⟨rfl, rfl⟩

end Udp
